import Mathlib

/-!
Verification of the auto-deployer preview controller (Go) against its
natural-language specification.

The Go sources are shallowly embedded: pure Go functions become Lean
functions over Lean strings / integers / association lists (Go maps with
unique keys are modelled as association lists, where indexing a missing
key yields the zero value, as in Go); fallible functions return
Except/Option; cluster API interactions are modelled by passing the
relevant request outcomes explicitly.
-/

set_option maxRecDepth 4000

namespace AutoDeployer

instance {ε α : Type} [DecidableEq ε] [DecidableEq α] : DecidableEq (Except ε α) :=
  fun x y =>
    match x, y with
    | .ok a, .ok b => decidable_of_iff (a = b) (by simp)
    | .error e, .error f => decidable_of_iff (e = f) (by simp)
    | .ok _, .error _ => isFalse (by simp)
    | .error _, .ok _ => isFalse (by simp)

/-! ## Association-list model of Go string maps -/

/-- Comma-ok lookup on a Go map: the value when the key is present. -/
def lookupKey (m : List (String × String)) (k : String) : Option String :=
  (m.find? (fun p => p.1 == k)).map (fun p => p.2)

/-- Go map indexing without comma-ok: missing keys read as the zero value, the
empty string. -/
def lookupStr (m : List (String × String)) (k : String) : String :=
  (lookupKey m k).getD ""

/-- Removing one key from a map, used only to compare annotation maps up to a
single key. -/
def eraseKey (m : List (String × String)) (k : String) : List (String × String) :=
  m.filter (fun p => p.1 != k)

/-! ## Naming and templating (src/internal/reconcile/naming.go, templates part) -/

/-- Go fmt Sprintf on an int: decimal representation. -/
def intDec (n : Int) : String := toString n

/-- Embeds Go ResourcePrefix: the deterministic per-preview resource name. -/
def resourceNameFor (app : String) (prNumber : Int) : String :=
  app ++ "-pr-" ++ intDec prNumber

/-- Embeds Go strings.TrimPrefix(base, dash): drops one leading dash when
present. -/
def trimLeadingDash (base : String) : String :=
  match base.data with
  | '-' :: rest => ⟨rest⟩
  | _ => base

/-- Embeds Go NamespaceForMode: the target namespace for a namespace mode. -/
def NamespaceForMode (mode base app : String) (prNumber : Int) :
    Except String String :=
  match mode with
  | "single" =>
    if base = "" then .error "base namespace required for single mode"
    else .ok base
  | "per-app" =>
    if base = "" then .error "base namespace required for per-app mode"
    else .ok (app ++ "-" ++ trimLeadingDash base)
  | "per-pr" => .ok (resourceNameFor app prNumber)
  | _ => .error ("unknown namespace mode: " ++ mode)

/-- Embeds Go ImageTag: image tag from strategy, PR number and head SHA. -/
def ImageTag (strategy : String) (prNumber : Int) (sha : String) :
    Except String String :=
  match strategy with
  | "sha" => .ok sha
  | "pr" => .ok ("pr-" ++ intDec prNumber)
  | "pr-sha" =>
    let short := if sha.length > 7 then ⟨sha.data.take 7⟩ else sha
    .ok ("pr-" ++ intDec prNumber ++ "-" ++ short)
  | _ => .error ("unknown IMAGE_TAG_STRATEGY: " ++ strategy)

/-- Embeds the strings.NewReplacer core of Go RenderTemplate: one left-to-right
scan, each placeholder occurrence replaced once, substituted text never
rescanned. The three patterns all start with an opening brace and differ at the
next character, so the Go replacer trie is deterministic here. -/
def renderChars (app tag pr : String) : List Char → List Char
  | '{' :: 'a' :: 'p' :: 'p' :: '}' :: rest => app.data ++ renderChars app tag pr rest
  | '{' :: 't' :: 'a' :: 'g' :: '}' :: rest => tag.data ++ renderChars app tag pr rest
  | '{' :: 'p' :: 'r' :: '}' :: rest => pr.data ++ renderChars app tag pr rest
  | c :: rest => c :: renderChars app tag pr rest
  | [] => []

/-- Embeds Go RenderTemplate: empty template fails, otherwise substitute the
placeholders for app, tag and PR number. -/
def RenderTemplate (template app tag : String) (prNumber : Int) :
    Except String String :=
  if template = "" then .error "template is empty"
  else .ok ⟨renderChars app tag (intDec prNumber) template.data⟩

/-! ## Time model

Go time.Time values that matter to the controller are UTC instants; they are
modelled as Int Unix seconds. Go time.Duration values are modelled in the same
unit. -/

/-- Decimal with at least two digits (Sprintf 02d for calendar fields). -/
def pad2 (n : Int) : String :=
  if n < 10 then "0" ++ intDec n else intDec n

/-- Decimal with at least four digits (Sprintf 04d for the year field). -/
def pad4 (n : Int) : String :=
  if n < 10 then "000" ++ intDec n
  else if n < 100 then "00" ++ intDec n
  else if n < 1000 then "0" ++ intDec n
  else intDec n

/-- Civil date from a day count relative to 1970-01-01 (standard civil-calendar
conversion, proleptic Gregorian): returns (year, month, day). -/
def daysToCivil (z0 : Int) : Int × Int × Int :=
  let z := z0 + 719468
  let era := Int.fdiv z 146097
  let doe := z - era * 146097
  let yoe := Int.fdiv (doe - Int.fdiv doe 1460 + Int.fdiv doe 36524 - Int.fdiv doe 146096) 365
  let y := yoe + era * 400
  let doy := doe - (365 * yoe + Int.fdiv yoe 4 - Int.fdiv yoe 100)
  let mp := Int.fdiv (5 * doy + 2) 153
  let d := doy - Int.fdiv (153 * mp + 2) 5 + 1
  let m := mp + (if mp < 10 then 3 else -9)
  (y + (if m ≤ 2 then 1 else 0), m, d)

/-- Day count relative to 1970-01-01 from a civil date (inverse direction of
daysToCivil). -/
def civilToDays (y0 m d : Int) : Int :=
  let y := y0 - (if m ≤ 2 then 1 else 0)
  let era := Int.fdiv y 400
  let yoe := y - era * 400
  let doy := Int.fdiv (153 * (m + (if m > 2 then -3 else 9)) + 2) 5 + d - 1
  let doe := yoe * 365 + Int.fdiv yoe 4 - Int.fdiv yoe 100 + doy
  era * 146097 + doe - 719468

/-- Modelled from the spec: Go now.UTC().Format(time.RFC3339), which the
controller uses to write the created-at / last-updated-at annotations; the
stdlib formatter itself is outside the repository. -/
def fmtRFC3339 (t : Int) : String :=
  let days := Int.fdiv t 86400
  let rem := t - 86400 * days
  let c := daysToCivil days
  let hh := Int.fdiv rem 3600
  let mi := Int.fdiv (rem - 3600 * hh) 60
  let ss := rem - 3600 * hh - 60 * mi
  pad4 c.1 ++ "-" ++ pad2 c.2.1 ++ "-" ++ pad2 c.2.2 ++ "T" ++
    pad2 hh ++ ":" ++ pad2 mi ++ ":" ++ pad2 ss ++ "Z"

/-- Numeric value of one ASCII digit. -/
def digitVal (c : Char) : Option Int :=
  if '0' ≤ c ∧ c ≤ '9' then some ((c.toNat : Int) - 48) else none

/-- Two-digit field of an RFC-3339 timestamp. -/
def num2 (a b : Char) : Option Int := do
  let x ← digitVal a
  let y ← digitVal b
  pure (10 * x + y)

/-- Four-digit field of an RFC-3339 timestamp. -/
def num4 (a b c d : Char) : Option Int := do
  let x ← num2 a b
  let y ← num2 c d
  pure (100 * x + y)

/-- Gregorian leap-year rule. -/
def isLeapYear (y : Int) : Bool :=
  (Int.emod y 4 = 0 ∧ Int.emod y 100 ≠ 0) ∨ Int.emod y 400 = 0

/-- Length of a month in a given year. -/
def daysInMonth (y m : Int) : Int :=
  if m = 2 then (if isLeapYear y then 29 else 28)
  else if m = 4 ∨ m = 6 ∨ m = 9 ∨ m = 11 then 30
  else 31

/-- Modelled from the spec: Go time.Parse(time.RFC3339, s), which the stale
scanner uses on the age annotations; restricted to the UTC Z form that
fmtRFC3339 writes — any other shape is rejected. The stdlib parser itself is
outside the repository. -/
def parseRFC3339 (s : String) : Option Int :=
  match s.data with
  | [y1, y2, y3, y4, '-', m1, m2, '-', d1, d2, 'T',
     h1, h2, ':', n1, n2, ':', s1, s2, 'Z'] => do
    let y ← num4 y1 y2 y3 y4
    let mo ← num2 m1 m2
    let d ← num2 d1 d2
    let h ← num2 h1 h2
    let mi ← num2 n1 n2
    let ss ← num2 s1 s2
    if 1 ≤ mo ∧ mo ≤ 12 ∧ 1 ≤ d ∧ d ≤ daysInMonth y mo ∧
        h ≤ 23 ∧ mi ≤ 59 ∧ ss ≤ 59 then
      some (civilToDays y mo d * 86400 + h * 3600 + mi * 60 + ss)
    else none
  | _ => none

/-- Sanity of the time model: format and parse agree on concrete instants and
garbage is rejected. -/
theorem rfc3339_model_sane :
    fmtRFC3339 0 = "1970-01-01T00:00:00Z" ∧
    parseRFC3339 "1970-01-01T00:00:00Z" = some 0 ∧
    fmtRFC3339 1768480496 = "2026-01-15T12:34:56Z" ∧
    parseRFC3339 "2026-01-15T12:34:56Z" = some 1768480496 ∧
    parseRFC3339 "not-a-time" = none := by
  exact ⟨by decide, by decide, by decide, by decide, by decide⟩

/-! ## Labels, annotations and the desired-state builder (part_005 of the
reconcile package) -/

/-- The per-rune mapping inside Go sanitizeLabelValue. -/
def sanitizeRune (r : Char) : Char :=
  if ('a' ≤ r ∧ r ≤ 'z') ∨ ('A' ≤ r ∧ r ≤ 'Z') ∨ ('0' ≤ r ∧ r ≤ '9') ∨
      r = '-' ∨ r = '_' ∨ r = '.' then r
  else '-'

/-- Separator test used by the trim step of sanitizeLabelValue. -/
def isSepRune (c : Char) : Bool :=
  c = '-' ∨ c = '_' ∨ c = '.'

/-- Embeds Go sanitizeLabelValue: map runes, trim leading/trailing separators,
fall back to the literal unknown when empty. -/
def sanitizeLabelValue (value : String) : String :=
  if value = "" then "unknown"
  else
    let sanitized := value.data.map sanitizeRune
    let trimmed := ((sanitized.dropWhile isSepRune).reverse.dropWhile isSepRune).reverse
    if trimmed = [] then "unknown" else ⟨trimmed⟩

def annotationLastUpdatedAt : String := "preview-controller/last-updated-at"

def annotationCreatedAt : String := "preview-controller/created-at"

def annotationHeadSHA : String := "preview-controller/head-sha"

def labelPreviewEnabled : String := "preview-controller/preview"

def labelPRNumber : String := "preview-controller/pr"

def labelRepoFullName : String := "preview-controller/repo"

/-- Embeds the Go PreviewConfig struct (the namespace field is renamed, since
Lean reserves that word). -/
structure PreviewConfig where
  appName : String := ""
  nspace : String := ""
  prNumber : Int := 0
  repoFullName : String := ""
  imageRef : String := ""
  containerPort : Int := 0
  routeHost : String := ""
  routePath : String := ""
  headSHA : String := ""
  env : List (String × String) := []
deriving DecidableEq

/-- Embeds Go Labels: the shared label set of the three managed objects. -/
def labelsFor (cfg : PreviewConfig) : List (String × String) :=
  [("app.kubernetes.io/name", cfg.appName),
   ("app.kubernetes.io/instance", resourceNameFor cfg.appName cfg.prNumber),
   (labelPreviewEnabled, "true"),
   (labelPRNumber, intDec cfg.prNumber),
   (labelRepoFullName, sanitizeLabelValue cfg.repoFullName)]

/-- Embeds Go Annotations: last-updated-at is always the current instant,
created-at is inherited when a previous value is known and fresh otherwise. -/
def annotationsFor (cfg : PreviewConfig) (now : Int) (createdAt : String) :
    List (String × String) :=
  [(annotationHeadSHA, cfg.headSHA),
   (annotationLastUpdatedAt, fmtRFC3339 now),
   (annotationCreatedAt, if createdAt = "" then fmtRFC3339 now else createdAt)]

/-- Insertion into a sorted key list (sort.Strings model). -/
def insertSorted (x : String) : List String → List String
  | [] => [x]
  | y :: ys => if x ≤ y then x :: y :: ys else y :: insertSorted x ys

/-- Lexicographic sort of env keys, as Go sort.Strings produces. -/
def sortStrings : List String → List String
  | [] => []
  | x :: xs => insertSorted x (sortStrings xs)

/-- Embeds Go envVars: environment entries in canonical key order. -/
def envVarsFor (env : List (String × String)) : List (String × String) :=
  if env = [] then []
  else (sortStrings (env.map Prod.fst)).map (fun k => (k, lookupStr env k))

/-- Embeds the fields of the built appsv1.Deployment that the controller
writes. -/
structure DeploymentObj where
  name : String := ""
  nspace : String := ""
  labels : List (String × String) := []
  annotations : List (String × String) := []
  replicas : Int := 0
  selector : List (String × String) := []
  podLabels : List (String × String) := []
  containerName : String := ""
  image : String := ""
  containerPorts : List Int := []
  containerEnv : List (String × String) := []
  resourceVersion : String := ""
deriving DecidableEq

/-- Embeds Go BuildDeployment. -/
def buildDeployment (cfg : PreviewConfig) (annotations : List (String × String)) :
    DeploymentObj :=
  let labels := labelsFor cfg
  { name := resourceNameFor cfg.appName cfg.prNumber
    nspace := cfg.nspace
    labels := labels
    annotations := annotations
    replicas := 1
    selector := labels
    podLabels := labels
    containerName := cfg.appName
    image := cfg.imageRef
    containerPorts := [cfg.containerPort]
    containerEnv := envVarsFor cfg.env }

/-- One port entry of a corev1.Service spec. -/
structure ServicePort where
  name : String := ""
  port : Int := 0
  targetPort : Int := 0
  nodePort : Int := 0
deriving DecidableEq

/-- Embeds the fields of the built corev1.Service that the controller writes,
plus the server-assigned fields the apply layer preserves (Go nil slices and
nil pointers are modelled as none). -/
structure ServiceObj where
  name : String := ""
  nspace : String := ""
  labels : List (String × String) := []
  annotations : List (String × String) := []
  svcType : String := ""
  selector : List (String × String) := []
  ports : List ServicePort := []
  clusterIP : String := ""
  clusterIPs : List String := []
  ipFamilies : Option (List String) := none
  ipFamilyPolicy : Option String := none
  resourceVersion : String := ""
deriving DecidableEq

/-- Embeds Go BuildService. -/
def buildService (cfg : PreviewConfig) (annotations : List (String × String)) :
    ServiceObj :=
  let labels := labelsFor cfg
  { name := resourceNameFor cfg.appName cfg.prNumber
    nspace := cfg.nspace
    labels := labels
    annotations := annotations
    svcType := "ClusterIP"
    selector := labels
    ports := [{ name := "http", port := 80, targetPort := cfg.containerPort }] }

/-- Embeds the unstructured Route object the controller builds: the path field
is present only when the config's route path is non-empty. -/
structure RouteObj where
  name : String := ""
  nspace : String := ""
  labels : List (String × String) := []
  annotations : List (String × String) := []
  host : String := ""
  toKind : String := ""
  toName : String := ""
  targetPort : String := ""
  path : Option String := none
  resourceVersion : String := ""
deriving DecidableEq

/-- Embeds Go BuildRoute. -/
def buildRoute (cfg : PreviewConfig) (annotations : List (String × String)) :
    RouteObj :=
  let labels := labelsFor cfg
  let name := resourceNameFor cfg.appName cfg.prNumber
  { name := name
    nspace := cfg.nspace
    labels := labels
    annotations := annotations
    host := cfg.routeHost
    toKind := "Service"
    toName := name
    targetPort := "http"
    path := if cfg.routePath = "" then none else some cfg.routePath }

/-! ## Apply layer (openshift package, apply part)

Each Go apply helper first issues a Get; the possible request outcomes are
modelled by GetResult. Create/Update are modelled by their error outcome
(none on success) together with the object the helper hands them. -/

/-- Outcome of the Get call that starts every apply: the existing object, a
distinguishable not-found error, or any other API error. -/
inductive GetResult (α : Type) where
  | found (existing : α)
  | notFound
  | failure (msg : String)
deriving DecidableEq

/-- What an apply helper did: the created flag it reports, the error it
returns, and the object it passed to Create/Update (none when neither was
attempted). -/
structure ApplyOutcome (α : Type) where
  created : Bool
  err : Option String
  written : Option α
deriving DecidableEq

/-- Embeds Go (Client) ApplyDeployment, with the Get outcome and the
Create/Update error outcomes made explicit. -/
def applyDeployment (get : GetResult DeploymentObj) (createErr updateErr : Option String)
    (desired : DeploymentObj) : ApplyOutcome DeploymentObj :=
  match get with
  | .notFound => { created := true, err := createErr, written := some desired }
  | .failure e => { created := false, err := some e, written := none }
  | .found existing =>
    { created := false, err := updateErr
      written := some { desired with resourceVersion := existing.resourceVersion } }

/-- Embeds Go existingNodePort: the node port of the existing service port with
the given name, zero when no port matches. -/
def existingNodePort (existing : ServiceObj) (name : String) : Int :=
  match existing.ports.find? (fun p => p.name == name) with
  | some p => p.nodePort
  | none => 0

/-- Embeds Go preserveServiceFields: copy server-assigned service fields from
the existing object into the desired one when the desired spec leaves them
unset, and rewrite every desired port's node port from the existing port of
the same name. -/
def preserveServiceFields (existing desired : ServiceObj) : ServiceObj :=
  let d1 := if desired.clusterIP = "" then { desired with clusterIP := existing.clusterIP } else desired
  let d2 := if d1.clusterIPs = [] ∧ existing.clusterIPs ≠ [] then
      { d1 with clusterIPs := existing.clusterIPs } else d1
  let d3 := if d2.ipFamilies = none ∧ existing.ipFamilies ≠ none then
      { d2 with ipFamilies := existing.ipFamilies } else d2
  let d4 := if d3.ipFamilyPolicy = none ∧ existing.ipFamilyPolicy ≠ none then
      { d3 with ipFamilyPolicy := existing.ipFamilyPolicy } else d3
  { d4 with ports := d4.ports.map (fun p => { p with nodePort := existingNodePort existing p.name }) }

/-- Embeds Go (Client) ApplyService. -/
def applyService (get : GetResult ServiceObj) (createErr updateErr : Option String)
    (desired : ServiceObj) : ApplyOutcome ServiceObj :=
  match get with
  | .notFound => { created := true, err := createErr, written := some desired }
  | .failure e => { created := false, err := some e, written := none }
  | .found existing =>
    { created := false, err := updateErr
      written := some (preserveServiceFields existing
        { desired with resourceVersion := existing.resourceVersion }) }

/-- Embeds Go (Client) ApplyRoute. -/
def applyRoute (get : GetResult RouteObj) (createErr updateErr : Option String)
    (desired : RouteObj) : ApplyOutcome RouteObj :=
  match get with
  | .notFound => { created := true, err := createErr, written := some desired }
  | .failure e => { created := false, err := some e, written := none }
  | .found existing =>
    { created := false, err := updateErr
      written := some { desired with resourceVersion := existing.resourceVersion } }

/-! ## Reconciliation engine: UpsertPreview (naming.go, upsert part)

For the idempotence claim the relevant cluster state is the stored Deployment
of the preview's deterministic name (none when the Get would report
not-found); the apply layer stores the object it writes. -/

/-- Embeds Go existingCreatedAt: the created-at annotation of the stored
Deployment, the empty string when the Deployment is absent (not-found) or
carries no annotations. -/
def existingCreatedAt (stored : Option DeploymentObj) : String :=
  match stored with
  | none => ""
  | some d => lookupStr d.annotations annotationCreatedAt

/-- The desired objects one UpsertPreview call builds, given the stored
Deployment and the call's instant (Go time.Now().UTC()). -/
def upsertBuild (stored : Option DeploymentObj) (now : Int) (cfg : PreviewConfig) :
    DeploymentObj × ServiceObj × RouteObj :=
  let annotations := annotationsFor cfg now (existingCreatedAt stored)
  (buildDeployment cfg annotations, buildService cfg annotations, buildRoute cfg annotations)

/-- The stored Deployment after one successful UpsertPreview call: the apply
layer created or updated it to the desired object. -/
def upsertNext (stored : Option DeploymentObj) (now : Int) (cfg : PreviewConfig) :
    Option DeploymentObj :=
  some (upsertBuild stored now cfg).1

/-! ## DeletePreview (part_003 of the reconcile package)

The list/delete requests the function issues are modelled by their outcomes:
each kind's List result (item names or an error) and per-item Delete outcome,
plus the namespace Delete outcome, for which not-found is kept
distinguishable. -/

/-- Outcome of a Delete call; not-found is a distinguishable error, as the
cluster API reports it. -/
inductive DeleteResult where
  | ok
  | notFound
  | failure (msg : String)
deriving DecidableEq

/-- The message an error result carries (the not-found error reads as the API
not-found message). -/
def DeleteResult.errMsg : DeleteResult → Option String
  | .ok => none
  | .notFound => some "not found"
  | .failure e => some e

/-- The delete loop shared by the three Go drain helpers: delete each listed
name in order, stopping at the first error. -/
def drainList (del : String → DeleteResult) : List String → Option String
  | [] => none
  | n :: rest =>
    match (del n).errMsg with
    | some e => some e
    | none => drainList del rest

/-- Embeds the shared shape of Go deleteDeployments / deleteServices /
deleteRoutes: list the matching names, then delete each in order, stopping at
the first error. -/
def drainKind (listed : Except String (List String)) (del : String → DeleteResult) :
    Option String :=
  match listed with
  | .error e => some e
  | .ok items => drainList del items

/-- The cluster request outcomes one DeletePreview run observes. -/
structure DeleteOps where
  listDeployments : Except String (List String) := .ok []
  listServices : Except String (List String) := .ok []
  listRoutes : Except String (List String) := .ok []
  delDeployment : String → DeleteResult := fun _ => .ok
  delService : String → DeleteResult := fun _ => .ok
  delRoute : String → DeleteResult := fun _ => .ok
  delNamespace : DeleteResult := .ok

/-- Embeds Go DeletePreview: drain Deployments, then Services, then Routes
matching the label selector, and under the per-pr namespace mode delete the
namespace itself; any error — including a not-found from the namespace
delete — is wrapped and returned. -/
def deletePreview (ops : DeleteOps) (namespaceMode : String) : Except String Unit :=
  match drainKind ops.listDeployments ops.delDeployment with
  | some e => .error ("delete deployments: " ++ e)
  | none =>
  match drainKind ops.listServices ops.delService with
  | some e => .error ("delete services: " ++ e)
  | none =>
  match drainKind ops.listRoutes ops.delRoute with
  | some e => .error ("delete routes: " ++ e)
  | none =>
  if namespaceMode = "per-pr" then
    match ops.delNamespace.errMsg with
    | some e => .error ("delete namespace: " ++ e)
    | none => .ok ()
  else .ok ()

/-! ## Stale cleanup scanner (part_004 of the reconcile package) -/

/-- Digit accumulator of the strconv.Atoi model. -/
def decDigitsAux : List Char → Nat → Option Nat
  | [], acc => some acc
  | c :: rest, acc =>
    if c.isDigit then decDigitsAux rest (acc * 10 + (c.toNat - 48)) else none

/-- A non-empty all-digit run read as a natural number. -/
def decDigits : List Char → Option Nat
  | [] => none
  | l => decDigitsAux l 0

/-- Modelled from the spec: Go strconv.Atoi — optional sign, at least one
digit, 64-bit integer range; the stdlib parser itself is outside the
repository. -/
def goAtoi (s : String) : Option Int :=
  match s.data with
  | '+' :: rest => do
    let n ← decDigits rest
    if (n : Int) ≤ 9223372036854775807 then some (n : Int) else none
  | '-' :: rest => do
    let n ← decDigits rest
    if (n : Int) ≤ 9223372036854775808 then some (-(n : Int)) else none
  | l => do
    let n ← decDigits l
    if (n : Int) ≤ 9223372036854775807 then some (n : Int) else none

/-- Embeds the Go previewIdentity struct: the durable key of one preview. -/
structure PreviewIdentity where
  nspace : String
  prNumber : Int
  repo : String
deriving DecidableEq

/-- Embeds Go previewIdentityFromLabels. -/
def previewIdentityFromLabels (nspace : String) (labels : List (String × String)) :
    Option PreviewIdentity :=
  if lookupStr labels labelPreviewEnabled ≠ "true" then none
  else
    match lookupKey labels labelPRNumber with
    | none => none
    | some prRaw =>
      match goAtoi prRaw with
      | none => none
      | some pr =>
        if pr ≤ 0 then none
        else
          match lookupKey labels labelRepoFullName with
          | none => none
          | some repo =>
            if repo = "" then none
            else if nspace = "" then none
            else some ⟨nspace, pr, repo⟩

/-- Embeds Go lastTouchedAt: prefer a parseable last-updated-at annotation,
else a parseable created-at annotation, else the object's creation timestamp
(none models the zero time.Time, for which IsZero reports true). -/
def lastTouchedAt (annotations : Option (List (String × String)))
    (fallback : Option Int) : Option Int :=
  let fromAnns :=
    match annotations with
    | none => none
    | some anns =>
      match (if lookupStr anns annotationLastUpdatedAt = "" then none
             else parseRFC3339 (lookupStr anns annotationLastUpdatedAt)) with
      | some t => some t
      | none =>
        if lookupStr anns annotationCreatedAt = "" then none
        else parseRFC3339 (lookupStr anns annotationCreatedAt)
  match fromAnns with
  | some t => some t
  | none => fallback

/-- The metadata the scanner reads from one listed Deployment (a nil Go label
or annotation map is none; a zero creation timestamp is none). -/
structure DeploymentMeta where
  nspace : String := ""
  labels : Option (List (String × String)) := none
  annotations : Option (List (String × String)) := none
  creationTimestamp : Option Int := none
deriving DecidableEq

/-- What the scanner loop body decides for one Deployment: count it skipped,
keep it, or mark its preview identity stale. -/
inductive CleanupDecision where
  | skipped
  | kept
  | stale (ref : PreviewIdentity)
deriving DecidableEq

/-- Embeds the per-Deployment part of the Go CleanupStalePreviews loop body:
nil labels, a rejected identity, or an undeterminable last-touched time skip
the Deployment; a last-touched time within maxAge of now keeps it; anything
else is stale. -/
def cleanupDecision (now maxAge : Int) (d : DeploymentMeta) : CleanupDecision :=
  match d.labels with
  | none => .skipped
  | some ls =>
    match previewIdentityFromLabels d.nspace ls with
    | none => .skipped
    | some ref =>
      match lastTouchedAt d.annotations d.creationTimestamp with
      | none => .skipped
      | some t => if now - t ≤ maxAge then .kept else .stale ref

/-- Embeds the Go CleanupResult counters. -/
structure CleanupResult where
  checked : Nat
  deleted : Nat
  skipped : Nat
deriving DecidableEq

/-- The config Go CleanupStalePreviews hands DeletePreview for a stale
identity. -/
def cleanupCfg (ref : PreviewIdentity) : PreviewConfig :=
  { nspace := ref.nspace, prNumber := ref.prNumber, repoFullName := ref.repo }

/-- The scanner fold: per Deployment apply the loop-body decision, deduplicate
stale identities through the seen set, and record each first stale occurrence
as a DeletePreview call (deletions are taken as succeeding, the case the
claims address). Returns (deleted count, skipped count, deleted identities in
call order). -/
def cleanupGo (now maxAge : Int) (seen : List PreviewIdentity) :
    List DeploymentMeta → Nat × Nat × List PreviewIdentity
  | [] => (0, 0, [])
  | d :: rest =>
    match cleanupDecision now maxAge d with
    | .skipped =>
      let r := cleanupGo now maxAge seen rest
      (r.1, r.2.1 + 1, r.2.2)
    | .kept => cleanupGo now maxAge seen rest
    | .stale ref =>
      if ref ∈ seen then cleanupGo now maxAge seen rest
      else
        let r := cleanupGo now maxAge (ref :: seen) rest
        (r.1 + 1, r.2.1, ref :: r.2.2)

/-- Embeds Go CleanupStalePreviews over the listed Deployments (list call
succeeding, deletions succeeding): the result counters and the deleted
identities. -/
def cleanupPass (now maxAge : Int) (ds : List DeploymentMeta) :
    CleanupResult × List PreviewIdentity :=
  let r := cleanupGo now maxAge [] ds
  ({ checked := ds.length, deleted := r.1, skipped := r.2.1 }, r.2.2)

/-! ## Webhook resolution pipeline (cmd/preview-controller/main.go) -/

/-- Embeds the Go EnvConfig struct. -/
structure EnvConfig where
  namespaceMode : String := ""
  baseNamespace : String := ""
  routeTemplate : String := ""
  imageTemplate : String := ""
  tagStrategy : String := ""
  defaultPort : Int := 8080
deriving DecidableEq

/-- Embeds the Go AppMapping struct. -/
structure AppMapping where
  appName : String := ""
  containerPort : Int := 0
  routePath : String := ""
  env : List (String × String) := []
deriving DecidableEq

/-- Embeds the webhook handler's config resolution (main.go, the pull_request
branch): default the port, resolve tag, image reference, namespace and route
host in that order, failing the request on the first error, and assemble the
PreviewConfig. -/
def resolvePreviewConfig (envCfg : EnvConfig) (appCfg : AppMapping)
    (repoFullName : String) (prNumber : Int) (headSHA : String) :
    Except String PreviewConfig :=
  let port := if appCfg.containerPort = 0 then envCfg.defaultPort else appCfg.containerPort
  match ImageTag envCfg.tagStrategy prNumber headSHA with
  | .error e => .error e
  | .ok tag =>
  match RenderTemplate envCfg.imageTemplate appCfg.appName tag prNumber with
  | .error e => .error e
  | .ok imageRef =>
  match NamespaceForMode envCfg.namespaceMode envCfg.baseNamespace appCfg.appName prNumber with
  | .error e => .error e
  | .ok nspace =>
  match RenderTemplate envCfg.routeTemplate appCfg.appName tag prNumber with
  | .error e => .error e
  | .ok routeHost =>
    .ok { appName := appCfg.appName, nspace := nspace, prNumber := prNumber,
          repoFullName := repoFullName, imageRef := imageRef, containerPort := port,
          routeHost := routeHost, routePath := appCfg.routePath, headSHA := headSHA,
          env := appCfg.env }

/-! ## Job queue (main.go, enqueueJob) -/

/-- A bounded FIFO job queue: the buffered Go channel's capacity and current
contents. -/
structure JobQueue (α : Type) where
  capacity : Nat
  items : List α
deriving DecidableEq

/-- Modelled from the spec: the non-blocking send on a buffered Go channel
(select with a default branch), which is runtime behaviour outside the
repository — it succeeds and appends in FIFO position exactly when the buffer
holds fewer items than its capacity. -/
def trySend {α : Type} (q : JobQueue α) (job : α) : Bool × JobQueue α :=
  if q.items.length < q.capacity then (true, { q with items := q.items ++ [job] })
  else (false, q)

/-- Embeds Go enqueueJob: report the outcome of the non-blocking send. -/
def enqueueJob {α : Type} (q : JobQueue α) (job : α) : Bool × JobQueue α :=
  trySend q job

/-! ## Helper lemmas -/

theorem append_Z_ne_empty (s : String) : s ++ "Z" ≠ "" := by
  intro h
  have hd : (s ++ "Z").data = ("" : String).data := congrArg String.data h
  simp [String.data_append] at hd

theorem fmtRFC3339_ne_empty (t : Int) : fmtRFC3339 t ≠ "" := by
  unfold fmtRFC3339
  apply append_Z_ne_empty

theorem lookupStr_annotationsFor_createdAt (cfg : PreviewConfig) (now : Int)
    (c : String) :
    lookupStr (annotationsFor cfg now c) annotationCreatedAt =
      (if c = "" then fmtRFC3339 now else c) := by
  simp [annotationsFor, lookupStr, lookupKey, annotationCreatedAt,
    annotationHeadSHA, annotationLastUpdatedAt, List.find?]

theorem lookupStr_annotationsFor_lastUpdatedAt (cfg : PreviewConfig) (now : Int)
    (c : String) :
    lookupStr (annotationsFor cfg now c) annotationLastUpdatedAt =
      fmtRFC3339 now := by
  simp [annotationsFor, lookupStr, lookupKey, annotationLastUpdatedAt,
    annotationHeadSHA, annotationCreatedAt, List.find?]

theorem toDigitsCore_length_le (b : Nat) :
    ∀ (fuel n : Nat) (ds : List Char),
      ds.length ≤ (Nat.toDigitsCore b fuel n ds).length := by
  intro fuel
  induction fuel with
  | zero => intro n ds; simp [Nat.toDigitsCore]
  | succ f ih =>
    intro n ds
    rw [Nat.toDigitsCore]
    split
    next => simp
    next =>
      refine le_trans ?_ (ih (n / b) (Nat.digitChar (n % b) :: ds))
      simp

theorem natRepr_ne_empty (n : Nat) : Nat.repr n ≠ "" := by
  intro h
  have hd : (Nat.repr n).data = [] := by rw [h]
  have h0 : (Nat.toDigits 10 n) = [] := by
    simpa [Nat.repr, List.asString] using hd
  have hlen : 1 ≤ (Nat.toDigits 10 n).length := by
    unfold Nat.toDigits
    rw [Nat.toDigitsCore]
    split
    next => simp
    next =>
      refine le_trans ?_ (toDigitsCore_length_le 10 _ _ _)
      simp
  rw [h0] at hlen
  simp at hlen

theorem intDec_ne_empty (i : Int) : intDec i ≠ "" := by
  cases i with
  | ofNat m => exact natRepr_ne_empty m
  | negSucc m =>
    intro h
    have h2 : ("-" ++ toString (m + 1) : String) = "" := h
    have hd : (("-" : String) ++ toString (m + 1)).data = [] := by rw [h2]
    rw [String.data_append] at hd
    simp at hd

theorem string_data_ne_nil {s : String} (h : s ≠ "") : s.data ≠ [] := by
  intro hd
  apply h
  cases s with
  | mk l =>
    simp only at hd
    rw [hd]

theorem str_append_ne_empty_left (a b : String) (h : a ≠ "") : a ++ b ≠ "" := by
  intro hz
  have hd : (a ++ b).data = [] := by rw [hz]
  rw [String.data_append] at hd
  exact string_data_ne_nil h (List.append_eq_nil.mp hd).1

theorem str_append_ne_empty_right (a b : String) (h : b ≠ "") : a ++ b ≠ "" := by
  intro hz
  have hd : (a ++ b).data = [] := by rw [hz]
  rw [String.data_append] at hd
  exact string_data_ne_nil h (List.append_eq_nil.mp hd).2

theorem renderChars_ne_nil (app tag pr : String) (ha : app.data ≠ [])
    (ht : tag.data ≠ []) (hp : pr.data ≠ []) :
    ∀ cs : List Char, cs ≠ [] → renderChars app tag pr cs ≠ [] := by
  intro cs hcs
  rw [renderChars.eq_def]
  split
  · simp [ha]
  · simp [ht]
  · simp [hp]
  · simp
  · exact absurd rfl hcs

theorem imageTag_ok_ne_empty (strategy : String) (prNumber : Int) (sha tag : String)
    (h : ImageTag strategy prNumber sha = .ok tag) (hsha : sha ≠ "") : tag ≠ "" := by
  unfold ImageTag at h
  split at h
  · injection h with h2
    rw [← h2]
    exact hsha
  · injection h with h2
    rw [← h2]
    exact str_append_ne_empty_left _ _ (by decide)
  · injection h with h2
    rw [← h2]
    exact str_append_ne_empty_left _ _
      (str_append_ne_empty_right _ _ (by decide))
  · cases h

theorem renderTemplate_ok (t a g : String) (p : Int) (out : String)
    (h : RenderTemplate t a g p = .ok out) :
    t ≠ "" ∧ out = ⟨renderChars a g (intDec p) t.data⟩ := by
  unfold RenderTemplate at h
  split at h
  · cases h
  next ht =>
    injection h with h2
    exact ⟨ht, h2.symm⟩

theorem renderTemplate_ok_ne_empty (t a g : String) (p : Int) (out : String)
    (h : RenderTemplate t a g p = .ok out) (ha : a ≠ "") (hg : g ≠ "") :
    out ≠ "" := by
  obtain ⟨ht, rfl⟩ := renderTemplate_ok t a g p out h
  intro hz
  have hd : renderChars a g (intDec p) t.data = [] := by
    have := congrArg String.data hz
    simpa using this
  exact renderChars_ne_nil a g (intDec p) (string_data_ne_nil ha)
    (string_data_ne_nil hg) (string_data_ne_nil (intDec_ne_empty p))
    t.data (string_data_ne_nil ht) hd

theorem namespaceForMode_ok_ne_empty (mode base app : String) (p : Int)
    (ns : String) (h : NamespaceForMode mode base app p = .ok ns) : ns ≠ "" := by
  unfold NamespaceForMode at h
  split at h
  · split at h
    · cases h
    next hb =>
      injection h with h2
      rw [← h2]
      exact hb
  · split at h
    · cases h
    next hb =>
      injection h with h2
      rw [← h2]
      exact str_append_ne_empty_left _ _ (str_append_ne_empty_right _ _ (by decide))
  · injection h with h2
    rw [← h2]
    unfold resourceNameFor
    exact str_append_ne_empty_left _ _ (str_append_ne_empty_right _ _ (by decide))
  · cases h

/-! ## Theorems -/

/-- C7: NamespaceForMode is a pure function of (mode, base, app, pr) returning
the base namespace verbatim for mode single (error iff base is empty),
app-dash-base-with-one-leading-dash-stripped for mode per-app (error iff base
is empty), app-pr-number for mode per-pr regardless of base, and an
unrecognized-mode error for every other mode string. -/
theorem C7_namespaceForMode (mode base app : String) (prNumber : Int) :
    (base ≠ "" → NamespaceForMode "single" base app prNumber = .ok base) ∧
    (NamespaceForMode "single" "" app prNumber =
      .error "base namespace required for single mode") ∧
    (base ≠ "" → NamespaceForMode "per-app" base app prNumber =
      .ok (app ++ "-" ++ trimLeadingDash base)) ∧
    (NamespaceForMode "per-app" "" app prNumber =
      .error "base namespace required for per-app mode") ∧
    (NamespaceForMode "per-pr" base app prNumber =
      .ok (app ++ "-pr-" ++ intDec prNumber)) ∧
    (mode ≠ "single" → mode ≠ "per-app" → mode ≠ "per-pr" →
      NamespaceForMode mode base app prNumber =
        .error ("unknown namespace mode: " ++ mode)) := by
  refine ⟨fun h => ?_, by simp [NamespaceForMode], fun h => ?_,
    by simp [NamespaceForMode], by simp [NamespaceForMode, resourceNameFor], ?_⟩
  · simp [NamespaceForMode, h]
  · simp [NamespaceForMode, h]
  · intro h1 h2 h3
    unfold NamespaceForMode
    split
    · exact absurd rfl h1
    · exact absurd rfl h2
    · exact absurd rfl h3
    · rfl

theorem C7_namespaceForMode_witness :
    (NamespaceForMode "single" "previews" "myapp" 42 = .ok "previews") ∧
    (NamespaceForMode "per-app" "-previews" "myapp" 42 = .ok "myapp-previews") ∧
    (NamespaceForMode "per-pr" "" "myapp" 42 = .ok "myapp-pr-42") ∧
    (NamespaceForMode "bogus" "previews" "myapp" 42 =
      .error "unknown namespace mode: bogus") := by
  have h := C7_namespaceForMode "bogus" "previews" "myapp" 42
  refine ⟨h.1 (by decide), ?_, ?_, h.2.2.2.2.2 (by decide) (by decide) (by decide)⟩
  · have h2 := (C7_namespaceForMode "bogus" "-previews" "myapp" 42).2.2.1 (by decide)
    simpa using h2
  · simpa using h.2.2.2.2.1

/-- C8: ImageTag returns the SHA verbatim for strategy sha, pr-number for
strategy pr, pr-number-followed-by-the-first-7-characters-of-the-SHA for
strategy pr-sha when the SHA has more than 7 characters and the full SHA
otherwise, and an error for every other strategy string. -/
theorem C8_imageTag (strategy : String) (prNumber : Int) (sha : String) :
    (ImageTag "sha" prNumber sha = .ok sha) ∧
    (ImageTag "pr" prNumber sha = .ok ("pr-" ++ intDec prNumber)) ∧
    (sha.length > 7 → ImageTag "pr-sha" prNumber sha =
      .ok ("pr-" ++ intDec prNumber ++ "-" ++ String.mk (sha.data.take 7))) ∧
    (¬ sha.length > 7 → ImageTag "pr-sha" prNumber sha =
      .ok ("pr-" ++ intDec prNumber ++ "-" ++ sha)) ∧
    (strategy ≠ "sha" → strategy ≠ "pr" → strategy ≠ "pr-sha" →
      ImageTag strategy prNumber sha =
        .error ("unknown IMAGE_TAG_STRATEGY: " ++ strategy)) := by
  refine ⟨rfl, rfl, fun h => ?_, fun h => ?_, ?_⟩
  · simp [ImageTag, h]
  · simp [ImageTag, h]
  · intro h1 h2 h3
    unfold ImageTag
    split
    · exact absurd rfl h1
    · exact absurd rfl h2
    · exact absurd rfl h3
    · rfl

theorem C8_imageTag_witness :
    (ImageTag "sha" 42 "abc123456789abc" = .ok "abc123456789abc") ∧
    (ImageTag "pr" 42 "abc123456789abc" = .ok "pr-42") ∧
    (ImageTag "pr-sha" 42 "abc123456789abc" = .ok "pr-42-abc1234") ∧
    (ImageTag "pr-sha" 42 "abc" = .ok "pr-42-abc") ∧
    (ImageTag "bogus" 42 "abc" = .error "unknown IMAGE_TAG_STRATEGY: bogus") := by
  have h := C8_imageTag "bogus" 42 "abc123456789abc"
  have h2 := C8_imageTag "bogus" 42 "abc"
  exact ⟨h.1, h.2.1, by simpa using h.2.2.1 (by decide),
    by simpa using h2.2.2.2.1 (by decide),
    h2.2.2.2.2 (by decide) (by decide) (by decide)⟩

/-- C9: RenderTemplate fails iff the template is empty, and otherwise
substitutes the literal placeholders by one independent, non-recursive
left-to-right pass: the given instance renders as the claim states, and a
placeholder-shaped string introduced by a substituted value is left
unexpanded. -/
theorem C9_renderTemplate (template app tag : String) (prNumber : Int) :
    ((RenderTemplate template app tag prNumber).isOk = true ↔ template ≠ "") ∧
    (RenderTemplate "registry.local/{app}:{tag}" app tag prNumber =
      .ok ("registry.local/" ++ app ++ ":" ++ tag)) ∧
    (RenderTemplate "registry.local/{app}:{tag}" "myapp" "pr-1-abc" 1 =
      .ok "registry.local/myapp:pr-1-abc") ∧
    (RenderTemplate "{app}" "{tag}" "tagvalue" 7 = .ok "{tag}") := by
  refine ⟨?_, ?_, by decide, by decide⟩
  · unfold RenderTemplate
    split
    · simp_all [Except.isOk, Except.toBool]
    · simp_all [Except.isOk, Except.toBool]
  · have h : ("registry.local/{app}:{tag}").data =
        'r' :: 'e' :: 'g' :: 'i' :: 's' :: 't' :: 'r' :: 'y' :: '.' :: 'l' ::
        'o' :: 'c' :: 'a' :: 'l' :: '/' :: '{' :: 'a' :: 'p' :: 'p' :: '}' ::
        ':' :: '{' :: 't' :: 'a' :: 'g' :: '}' :: [] := rfl
    unfold RenderTemplate
    rw [if_neg (by decide)]
    rw [h]
    simp [renderChars, String.ext_iff]

/-- C10: a non-blocking enqueue succeeds, appending the job in FIFO position,
iff the queue holds fewer jobs than its capacity; at capacity it fails
without modifying the queue, in particular with capacity 1 and one queued job
a second attempt returns failure. -/
theorem C10_enqueue {α : Type} (q : JobQueue α) (job j0 : α) :
    ((enqueueJob q job).1 = true ↔ q.items.length < q.capacity) ∧
    (q.items.length < q.capacity →
      enqueueJob q job = (true, { q with items := q.items ++ [job] })) ∧
    (¬ q.items.length < q.capacity → enqueueJob q job = (false, q)) ∧
    (enqueueJob ⟨1, [j0]⟩ job = (false, ⟨1, [j0]⟩)) := by
  refine ⟨?_, fun h => ?_, fun h => ?_, ?_⟩
  · unfold enqueueJob trySend
    split <;> simp_all
  · simp [enqueueJob, trySend, h]
  · simp [enqueueJob, trySend, h]
  · simp [enqueueJob, trySend]

theorem C10_enqueue_witness :
    ((enqueueJob ⟨2, [0]⟩ (1 : Nat)).1 = true) ∧
    (enqueueJob ⟨2, [0]⟩ (1 : Nat) = (true, ⟨2, [0, 1]⟩)) ∧
    (enqueueJob ⟨2, [0, 1]⟩ (2 : Nat) = (false, ⟨2, [0, 1]⟩)) ∧
    (enqueueJob ⟨1, [5]⟩ (6 : Nat) = (false, ⟨1, [5]⟩)) := by
  have h1 := C10_enqueue (⟨2, [0]⟩ : JobQueue Nat) 1 5
  have h2 := C10_enqueue (⟨2, [0, 1]⟩ : JobQueue Nat) 2 5
  have h3 := C10_enqueue (⟨1, [9]⟩ : JobQueue Nat) 6 5
  exact ⟨h1.1.mpr (by decide), h1.2.1 (by decide), h2.2.2.1 (by decide),
    (C10_enqueue (⟨1, [5]⟩ : JobQueue Nat) 6 5).2.2.2⟩

/-- C2: two consecutive UpsertPreview calls with the same PreviewConfig —
the first at instant t1 against any prior stored Deployment, the second at
instant t2 against the state the first left behind — build identical desired
Deployment and Service objects except for the annotations, whose maps agree
off the last-updated-at key (which records each call's own instant, so it
advances); the created-at annotation after the second call equals the value
the first call set. -/
theorem C2_upsertIdempotent (cfg : PreviewConfig) (stored0 : Option DeploymentObj)
    (t1 t2 : Int) :
    (lookupStr (upsertBuild (upsertNext stored0 t1 cfg) t2 cfg).1.annotations
        annotationCreatedAt =
      lookupStr (upsertBuild stored0 t1 cfg).1.annotations annotationCreatedAt) ∧
    (lookupStr (upsertBuild stored0 t1 cfg).1.annotations annotationLastUpdatedAt =
      fmtRFC3339 t1) ∧
    (lookupStr (upsertBuild (upsertNext stored0 t1 cfg) t2 cfg).1.annotations
        annotationLastUpdatedAt = fmtRFC3339 t2) ∧
    ((upsertBuild (upsertNext stored0 t1 cfg) t2 cfg).1 =
      { (upsertBuild stored0 t1 cfg).1 with
        annotations := (upsertBuild (upsertNext stored0 t1 cfg) t2 cfg).1.annotations }) ∧
    ((upsertBuild (upsertNext stored0 t1 cfg) t2 cfg).2.1 =
      { (upsertBuild stored0 t1 cfg).2.1 with
        annotations := (upsertBuild (upsertNext stored0 t1 cfg) t2 cfg).2.1.annotations }) ∧
    (eraseKey (upsertBuild (upsertNext stored0 t1 cfg) t2 cfg).1.annotations
        annotationLastUpdatedAt =
      eraseKey (upsertBuild stored0 t1 cfg).1.annotations annotationLastUpdatedAt) ∧
    ((upsertBuild (upsertNext stored0 t1 cfg) t2 cfg).2.1.annotations =
      (upsertBuild (upsertNext stored0 t1 cfg) t2 cfg).1.annotations) ∧
    ((upsertBuild stored0 t1 cfg).2.1.annotations =
      (upsertBuild stored0 t1 cfg).1.annotations) := by
  have hca : existingCreatedAt (upsertNext stored0 t1 cfg) =
      (if existingCreatedAt stored0 = "" then fmtRFC3339 t1
       else existingCreatedAt stored0) := by
    simp [upsertNext, upsertBuild, existingCreatedAt, buildDeployment]
    exact lookupStr_annotationsFor_createdAt cfg t1 (existingCreatedAt stored0)
  have hne : existingCreatedAt (upsertNext stored0 t1 cfg) ≠ "" := by
    rw [hca]
    by_cases h0 : existingCreatedAt stored0 = ""
    · simpa [h0] using fmtRFC3339_ne_empty t1
    · simp [h0]
  refine ⟨?_, ?_, ?_, ?_, ?_, ?_, ?_, ?_⟩
  · simp only [upsertBuild, buildDeployment]
    rw [lookupStr_annotationsFor_createdAt, lookupStr_annotationsFor_createdAt,
      if_neg hne, hca]
  · simp only [upsertBuild, buildDeployment]
    rw [lookupStr_annotationsFor_lastUpdatedAt]
  · simp only [upsertBuild, buildDeployment]
    rw [lookupStr_annotationsFor_lastUpdatedAt]
  · simp [upsertBuild, buildDeployment]
  · simp [upsertBuild, buildService]
  · simp only [upsertBuild, buildDeployment]
    simp only [eraseKey, annotationsFor, List.filter]
    rw [if_neg hne, hca]
    simp [annotationHeadSHA, annotationLastUpdatedAt, annotationCreatedAt]
  · simp [upsertBuild, buildDeployment, buildService]
  · simp [upsertBuild, buildDeployment, buildService]

/-- C3: each apply helper dispatches on the Get outcome: not-found creates the
desired object and reports created = true; a successful fetch copies the
existing resource version into the desired object, updates, and reports
created = false; any other fetch error is returned unmodified with neither a
create nor an update attempted. On the service update path the existing
cluster IP, cluster IPs, IP families, IP family policy and the per-port node
port matched by port name are additionally copied into the desired object
before the update. Every Service the desired-state builder produces leaves
the server-assigned fields unset, so the copies apply on every controller
update. -/
theorem C3_applyLayer (createErr updateErr : Option String) (e : String)
    (dexist ddes : DeploymentObj) (sexist sdes : ServiceObj)
    (rexist rdes : RouteObj) (cfg : PreviewConfig)
    (anns : List (String × String)) :
    (applyDeployment .notFound createErr updateErr ddes =
      { created := true, err := createErr, written := some ddes }) ∧
    (applyDeployment (.failure e) createErr updateErr ddes =
      { created := false, err := some e, written := none }) ∧
    (applyDeployment (.found dexist) createErr updateErr ddes =
      { created := false, err := updateErr
        written := some { ddes with resourceVersion := dexist.resourceVersion } }) ∧
    (applyService .notFound createErr updateErr sdes =
      { created := true, err := createErr, written := some sdes }) ∧
    (applyService (.failure e) createErr updateErr sdes =
      { created := false, err := some e, written := none }) ∧
    (applyRoute .notFound createErr updateErr rdes =
      { created := true, err := createErr, written := some rdes }) ∧
    (applyRoute (.failure e) createErr updateErr rdes =
      { created := false, err := some e, written := none }) ∧
    (applyRoute (.found rexist) createErr updateErr rdes =
      { created := false, err := updateErr
        written := some { rdes with resourceVersion := rexist.resourceVersion } }) ∧
    (sdes.clusterIP = "" → sdes.clusterIPs = [] → sdes.ipFamilies = none →
      sdes.ipFamilyPolicy = none →
      applyService (.found sexist) createErr updateErr sdes =
        { created := false, err := updateErr
          written := some { sdes with
            resourceVersion := sexist.resourceVersion
            clusterIP := sexist.clusterIP
            clusterIPs := sexist.clusterIPs
            ipFamilies := sexist.ipFamilies
            ipFamilyPolicy := sexist.ipFamilyPolicy
            ports := sdes.ports.map
              (fun p => { p with nodePort := existingNodePort sexist p.name }) } }) ∧
    ((buildService cfg anns).clusterIP = "" ∧
      (buildService cfg anns).clusterIPs = [] ∧
      (buildService cfg anns).ipFamilies = none ∧
      (buildService cfg anns).ipFamilyPolicy = none) := by
  refine ⟨rfl, rfl, rfl, rfl, rfl, rfl, rfl, rfl, ?_, rfl, rfl, rfl, rfl⟩
  intro h1 h2 h3 h4
  simp only [applyService, preserveServiceFields, h1, h2, h3, h4]
  by_cases c2 : sexist.clusterIPs = [] <;>
    by_cases c3 : sexist.ipFamilies = none <;>
    by_cases c4 : sexist.ipFamilyPolicy = none <;>
    simp_all

theorem C3_applyLayer_witness :
    applyService
      (.found { name := "myapp-pr-1", clusterIP := "10.0.0.9",
                clusterIPs := ["10.0.0.9"], ipFamilies := some ["IPv4"],
                ipFamilyPolicy := some "SingleStack",
                ports := [{ name := "http", port := 80, targetPort := 8080,
                            nodePort := 30001 }],
                resourceVersion := "41" })
      none none
      { name := "myapp-pr-1",
        ports := [{ name := "http", port := 80, targetPort := 9090 }] } =
    { created := false, err := none
      written := some
        { name := "myapp-pr-1", resourceVersion := "41",
          clusterIP := "10.0.0.9", clusterIPs := ["10.0.0.9"],
          ipFamilies := some ["IPv4"], ipFamilyPolicy := some "SingleStack",
          ports := [{ name := "http", port := 80, targetPort := 9090,
                      nodePort := 30001 }] } } := by
  have h := (C3_applyLayer none none "boom"
    {} {} { name := "myapp-pr-1", clusterIP := "10.0.0.9",
            clusterIPs := ["10.0.0.9"], ipFamilies := some ["IPv4"],
            ipFamilyPolicy := some "SingleStack",
            ports := [{ name := "http", port := 80, targetPort := 8080,
                        nodePort := 30001 }],
            resourceVersion := "41" }
    { name := "myapp-pr-1",
      ports := [{ name := "http", port := 80, targetPort := 9090 }] }
    {} {} {} []).2.2.2.2.2.2.2.2.1 rfl rfl rfl rfl
  simpa [existingNodePort] using h

/-- C5 as stated is false: with the preview-enabled label absent while the
PR-number label parses as a positive integer, the repository label is
non-empty and the namespace is non-empty, extraction still returns no
identity, because the code first requires the preview label to equal the
literal true. -/
theorem C5_identityExtraction_counterexample :
    previewIdentityFromLabels "previews"
      [(labelPRNumber, "123"), (labelRepoFullName, "hci-gu/auto-deployer")] = none ∧
    lookupKey [(labelPRNumber, "123"), (labelRepoFullName, "hci-gu/auto-deployer")]
      labelPRNumber = some "123" ∧
    goAtoi "123" = some 123 ∧ (0 : Int) < 123 ∧
    lookupKey [(labelPRNumber, "123"), (labelRepoFullName, "hci-gu/auto-deployer")]
      labelRepoFullName = some "hci-gu/auto-deployer" ∧
    ("hci-gu/auto-deployer" : String) ≠ "" ∧ ("previews" : String) ≠ "" := by
  refine ⟨by decide, by decide, by decide, by decide, by decide, by decide, by decide⟩

/-- C5 (amended): identity extraction returns no identity exactly when the
preview-enabled label is not the literal true, or the PR-number label is
missing or does not parse as a positive integer, or the repository-name label
is missing or empty, or the namespace is empty; otherwise it returns the
identity (namespace, PR number, repository name). -/
theorem C5_identityExtraction (nspace : String) (labels : List (String × String)) :
    (previewIdentityFromLabels nspace labels = none ↔
      lookupStr labels labelPreviewEnabled ≠ "true" ∨
      (¬ ∃ raw pr, lookupKey labels labelPRNumber = some raw ∧
          goAtoi raw = some pr ∧ 0 < pr) ∨
      lookupKey labels labelRepoFullName = none ∨
      lookupKey labels labelRepoFullName = some "" ∨
      nspace = "") ∧
    (∀ raw pr repo, lookupStr labels labelPreviewEnabled = "true" →
      lookupKey labels labelPRNumber = some raw → goAtoi raw = some pr → 0 < pr →
      lookupKey labels labelRepoFullName = some repo → repo ≠ "" → nspace ≠ "" →
      previewIdentityFromLabels nspace labels = some ⟨nspace, pr, repo⟩) := by
  unfold previewIdentityFromLabels
  by_cases hp : lookupStr labels labelPreviewEnabled = "true"
  case neg =>
    rw [if_pos hp]
    refine ⟨by simp [hp], ?_⟩
    intro raw pr repo hp' _ _ _ _ _ _
    exact absurd hp' hp
  case pos =>
    rw [if_neg (by simp [hp])]
    cases hpr : lookupKey labels labelPRNumber with
    | none =>
      dsimp only
      refine ⟨⟨fun _ => ?_, fun _ => rfl⟩, ?_⟩
      · right
        left
        rintro ⟨raw, pr, hraw, -⟩
        cases hraw
      · intro raw pr repo _ hraw _ _ _ _ _
        cases hraw
    | some raw =>
      dsimp only
      cases hat : goAtoi raw with
      | none =>
        dsimp only
        refine ⟨⟨fun _ => ?_, fun _ => rfl⟩, ?_⟩
        · right
          left
          rintro ⟨raw', pr', hraw', hat', -⟩
          injection hraw' with h1
          subst h1
          rw [hat] at hat'
          cases hat'
        · intro raw' pr' repo _ hraw' hat' _ _ _ _
          injection hraw' with h1
          subst h1
          rw [hat] at hat'
          cases hat'
      | some pr =>
        dsimp only
        by_cases hpos : pr ≤ 0
        · rw [if_pos hpos]
          refine ⟨⟨fun _ => ?_, fun _ => rfl⟩, ?_⟩
          · right
            left
            rintro ⟨raw', pr', hraw', hat', hp'⟩
            injection hraw' with h1
            subst h1
            rw [hat] at hat'
            injection hat' with h2
            omega
          · intro raw' pr' repo _ hraw' hat' hp' _ _ _
            injection hraw' with h1
            subst h1
            rw [hat] at hat'
            injection hat' with h2
            exact absurd hp' (by omega)
        · rw [if_neg hpos]
          cases hrepo : lookupKey labels labelRepoFullName with
          | none =>
            dsimp only
            refine ⟨⟨fun _ => ?_, fun _ => rfl⟩, ?_⟩
            · right
              right
              left
              rfl
            · intro raw' pr' repo _ _ _ _ hrepo' _ _
              cases hrepo'
          | some repo =>
            dsimp only
            by_cases hre : repo = ""
            · subst hre
              rw [if_pos rfl]
              refine ⟨⟨fun _ => ?_, fun _ => rfl⟩, ?_⟩
              · right
                right
                right
                left
                rfl
              · intro raw' pr' repo' _ _ _ _ hrepo' hre' _
                injection hrepo' with h3
                exact absurd h3.symm hre'
            · rw [if_neg hre]
              by_cases hns : nspace = ""
              · rw [if_pos hns]
                refine ⟨⟨fun _ => ?_, fun _ => rfl⟩, ?_⟩
                · right
                  right
                  right
                  right
                  exact hns
                · intro raw' pr' repo' _ _ _ _ _ _ hns'
                  exact absurd hns hns'
              · rw [if_neg hns]
                refine ⟨⟨?_, ?_⟩, ?_⟩
                · intro h
                  cases h
                · rintro (h | h | h | h | h)
                  · exact absurd hp h
                  · exact absurd ⟨raw, pr, rfl, hat, by omega⟩ h
                  · cases h
                  · injection h with h3
                    exact absurd h3 hre
                  · exact absurd h hns
                · intro raw' pr' repo' _ hraw' hat' _ hrepo' _ _
                  injection hraw' with h1
                  subst h1
                  rw [hat] at hat'
                  injection hat' with h2
                  subst h2
                  injection hrepo' with h3
                  subst h3
                  rfl

theorem C5_identityExtraction_witness :
    previewIdentityFromLabels "previews"
      [(labelPreviewEnabled, "true"), (labelPRNumber, "123"),
       (labelRepoFullName, "hci-gu/auto-deployer")] =
      some ⟨"previews", 123, "hci-gu/auto-deployer"⟩ := by
  exact (C5_identityExtraction "previews"
    [(labelPreviewEnabled, "true"), (labelPRNumber, "123"),
     (labelRepoFullName, "hci-gu/auto-deployer")]).2
    "123" 123 "hci-gu/auto-deployer" (by decide) (by decide) (by decide)
    (by decide) (by decide) (by decide) (by decide)

theorem cleanupGo_stale_mem (now maxAge : Int) (ref : PreviewIdentity) :
    ∀ (ds : List DeploymentMeta) (seen : List PreviewIdentity),
      (∃ d ∈ ds, cleanupDecision now maxAge d = .stale ref) →
      ref ∈ seen ∨ ref ∈ (cleanupGo now maxAge seen ds).2.2 := by
  intro ds
  induction ds with
  | nil =>
    rintro seen ⟨d, hd, -⟩
    cases hd
  | cons d rest ih =>
    rintro seen ⟨d', hd', hstale⟩
    rcases List.mem_cons.mp hd' with rfl | hmem
    · cases hdec : cleanupDecision now maxAge d' with
      | skipped => rw [hdec] at hstale; cases hstale
      | kept => rw [hdec] at hstale; cases hstale
      | stale ref' =>
        rw [hdec] at hstale
        injection hstale with h
        simp only [cleanupGo, hdec]
        rw [← h]
        by_cases hseen : ref' ∈ seen
        · exact .inl hseen
        · rw [if_neg hseen]
          right
          exact List.mem_cons_self _ _
    · have hex : ∃ x ∈ rest, cleanupDecision now maxAge x = .stale ref :=
        ⟨d', hmem, hstale⟩
      cases hdec : cleanupDecision now maxAge d with
      | skipped => simpa only [cleanupGo, hdec] using ih seen hex
      | kept => simpa only [cleanupGo, hdec] using ih seen hex
      | stale ref' =>
        simp only [cleanupGo, hdec]
        by_cases hseen : ref' ∈ seen
        · rw [if_pos hseen]
          exact ih seen hex
        · rw [if_neg hseen]
          rcases ih (ref' :: seen) hex with hs | hids
          · rcases List.mem_cons.mp hs with rfl | hs'
            · right
              exact List.mem_cons_self _ _
            · exact .inl hs'
          · right
            exact List.mem_cons_of_mem _ hids

/-- C4: the stale scanner's last-touched time is the last-updated-at
annotation when it parses as RFC-3339, else the created-at annotation when it
parses, else the object's own creation timestamp (the Deployment is skipped
when none is available); a Deployment with a valid identity is kept iff now
minus last-touched is at most maxAge, is otherwise decided stale, and every
stale Deployment's identity — also one reached through the
creation-timestamp fallback — is deleted by the pass. -/
theorem C4_staleCleanup (anns : List (String × String)) (fb : Option Int)
    (now maxAge t : Int) (d : DeploymentMeta) (ds : List DeploymentMeta)
    (ls : List (String × String)) (ref : PreviewIdentity) :
    (∀ u, parseRFC3339 (lookupStr anns annotationLastUpdatedAt) = some u →
      lastTouchedAt (some anns) fb = some u) ∧
    (parseRFC3339 (lookupStr anns annotationLastUpdatedAt) = none →
      ∀ u, parseRFC3339 (lookupStr anns annotationCreatedAt) = some u →
      lastTouchedAt (some anns) fb = some u) ∧
    (parseRFC3339 (lookupStr anns annotationLastUpdatedAt) = none →
      parseRFC3339 (lookupStr anns annotationCreatedAt) = none →
      lastTouchedAt (some anns) fb = fb) ∧
    (lastTouchedAt none fb = fb) ∧
    (d.labels = some ls → previewIdentityFromLabels d.nspace ls = some ref →
      lastTouchedAt d.annotations d.creationTimestamp = some t →
      ((cleanupDecision now maxAge d = .kept ↔ now - t ≤ maxAge) ∧
       (¬ now - t ≤ maxAge → cleanupDecision now maxAge d = .stale ref))) ∧
    (d.labels = some ls → previewIdentityFromLabels d.nspace ls = some ref →
      lastTouchedAt d.annotations d.creationTimestamp = none →
      cleanupDecision now maxAge d = .skipped) ∧
    (d ∈ ds → cleanupDecision now maxAge d = .stale ref →
      ref ∈ (cleanupPass now maxAge ds).2) := by
  have hparse_empty : parseRFC3339 "" = none := by decide
  refine ⟨?_, ?_, ?_, rfl, ?_, ?_, ?_⟩
  · intro u hu
    unfold lastTouchedAt
    dsimp only
    by_cases hlu : lookupStr anns annotationLastUpdatedAt = ""
    · rw [hlu] at hu
      rw [hparse_empty] at hu
      cases hu
    · rw [if_neg hlu, hu]
  · intro hlu u hu
    unfold lastTouchedAt
    dsimp only
    by_cases h1 : lookupStr anns annotationLastUpdatedAt = ""
    · rw [if_pos h1]
      dsimp only
      by_cases h2 : lookupStr anns annotationCreatedAt = ""
      · rw [h2] at hu
        rw [hparse_empty] at hu
        cases hu
      · rw [if_neg h2, hu]
    · rw [if_neg h1, hlu]
      dsimp only
      by_cases h2 : lookupStr anns annotationCreatedAt = ""
      · rw [h2] at hu
        rw [hparse_empty] at hu
        cases hu
      · rw [if_neg h2, hu]
  · intro hlu hca
    unfold lastTouchedAt
    dsimp only
    by_cases h1 : lookupStr anns annotationLastUpdatedAt = ""
    · rw [if_pos h1]
      dsimp only
      by_cases h2 : lookupStr anns annotationCreatedAt = ""
      · rw [if_pos h2]
      · rw [if_neg h2, hca]
    · rw [if_neg h1, hlu]
      dsimp only
      by_cases h2 : lookupStr anns annotationCreatedAt = ""
      · rw [if_pos h2]
      · rw [if_neg h2, hca]
  · intro hls hident hlast
    unfold cleanupDecision
    rw [hls]
    dsimp only
    rw [hident]
    dsimp only
    rw [hlast]
    dsimp only
    constructor
    · constructor
      · intro h
        by_contra hc
        rw [if_neg hc] at h
        cases h
      · intro h
        rw [if_pos h]
    · intro h
      rw [if_neg h]
  · intro hls hident hlast
    unfold cleanupDecision
    rw [hls]
    dsimp only
    rw [hident]
    dsimp only
    rw [hlast]
  · intro hmem hstale
    have h := cleanupGo_stale_mem now maxAge ref ds [] ⟨d, hmem, hstale⟩
    rcases h with h | h
    · cases h
    · exact h

theorem C4_staleCleanup_witness :
    (cleanupDecision 864000 604800
      { nspace := "previews"
        labels := some [(labelPreviewEnabled, "true"), (labelPRNumber, "42"),
          (labelRepoFullName, "org-app")]
        annotations := some [(annotationLastUpdatedAt, "1970-01-01T00:00:00Z")]
        creationTimestamp := none } =
      .stale ⟨"previews", 42, "org-app"⟩) ∧
    (cleanupDecision 864000 604800
      { nspace := "previews"
        labels := some [(labelPreviewEnabled, "true"), (labelPRNumber, "42"),
          (labelRepoFullName, "org-app")]
        annotations := some [(annotationLastUpdatedAt, "1970-01-10T00:00:00Z")]
        creationTimestamp := none } = .kept) ∧
    (cleanupDecision 864000 604800
      { nspace := "previews"
        labels := some [(labelPreviewEnabled, "true"), (labelPRNumber, "42"),
          (labelRepoFullName, "org-app")]
        annotations := none
        creationTimestamp := some 0 } =
      .stale ⟨"previews", 42, "org-app"⟩) ∧
    ((⟨"previews", 42, "org-app"⟩ : PreviewIdentity) ∈
      (cleanupPass 864000 604800
        [{ nspace := "previews"
           labels := some [(labelPreviewEnabled, "true"), (labelPRNumber, "42"),
             (labelRepoFullName, "org-app")]
           annotations := some [(annotationLastUpdatedAt, "1970-01-01T00:00:00Z")]
           creationTimestamp := none }]).2) := by
  refine ⟨?_, ?_, ?_, ?_⟩
  · exact ((C4_staleCleanup [] none 864000 604800 0
      { nspace := "previews"
        labels := some [(labelPreviewEnabled, "true"), (labelPRNumber, "42"),
          (labelRepoFullName, "org-app")]
        annotations := some [(annotationLastUpdatedAt, "1970-01-01T00:00:00Z")]
        creationTimestamp := none } []
      [(labelPreviewEnabled, "true"), (labelPRNumber, "42"),
        (labelRepoFullName, "org-app")]
      ⟨"previews", 42, "org-app"⟩).2.2.2.2.1 rfl (by decide) (by decide)).2 (by decide)
  · exact ((C4_staleCleanup [] none 864000 604800 777600
      { nspace := "previews"
        labels := some [(labelPreviewEnabled, "true"), (labelPRNumber, "42"),
          (labelRepoFullName, "org-app")]
        annotations := some [(annotationLastUpdatedAt, "1970-01-10T00:00:00Z")]
        creationTimestamp := none } []
      [(labelPreviewEnabled, "true"), (labelPRNumber, "42"),
        (labelRepoFullName, "org-app")]
      ⟨"previews", 42, "org-app"⟩).2.2.2.2.1 rfl (by decide) (by decide)).1.mpr
      (by decide)
  · exact ((C4_staleCleanup [] none 864000 604800 0
      { nspace := "previews"
        labels := some [(labelPreviewEnabled, "true"), (labelPRNumber, "42"),
          (labelRepoFullName, "org-app")]
        annotations := none
        creationTimestamp := some 0 } []
      [(labelPreviewEnabled, "true"), (labelPRNumber, "42"),
        (labelRepoFullName, "org-app")]
      ⟨"previews", 42, "org-app"⟩).2.2.2.2.1 rfl (by decide) (by decide)).2 (by decide)
  · exact (C4_staleCleanup [] none 864000 604800 0
      { nspace := "previews"
        labels := some [(labelPreviewEnabled, "true"), (labelPRNumber, "42"),
          (labelRepoFullName, "org-app")]
        annotations := some [(annotationLastUpdatedAt, "1970-01-01T00:00:00Z")]
        creationTimestamp := none }
      [{ nspace := "previews"
         labels := some [(labelPreviewEnabled, "true"), (labelPRNumber, "42"),
           (labelRepoFullName, "org-app")]
         annotations := some [(annotationLastUpdatedAt, "1970-01-01T00:00:00Z")]
         creationTimestamp := none }]
      [(labelPreviewEnabled, "true"), (labelPRNumber, "42"),
        (labelRepoFullName, "org-app")]
      ⟨"previews", 42, "org-app"⟩).2.2.2.2.2.2 (by decide) (by decide)

/-- C6 as stated is false: the webhook pipeline performs no validation of the
payload's PR number, so with PR number 0 every resolution step succeeds and
the produced PreviewConfig violates the invariant's PR-number-positive
part. -/
theorem C6_invariant_counterexample :
    resolvePreviewConfig
      { namespaceMode := "single", baseNamespace := "previews",
        routeTemplate := "{app}-pr-{pr}.example.com",
        imageTemplate := "registry.local/{app}:{tag}",
        tagStrategy := "pr", defaultPort := 8080 }
      { appName := "myapp", containerPort := 0, routePath := "", env := [] }
      "org/repo" 0 "abc" =
      .ok { appName := "myapp", nspace := "previews", prNumber := 0,
            repoFullName := "org/repo", imageRef := "registry.local/myapp:pr-0",
            containerPort := 8080, routeHost := "myapp-pr-0.example.com",
            routePath := "", headSHA := "abc", env := [] } ∧
    ¬ (0 : Int) < 0 := by
  exact ⟨by decide, by decide⟩

/-- C6 (amended): a PreviewConfig the pipeline resolves successfully always
has a non-empty namespace, and carries the payload's PR number and the
mapping's app name through unchanged; the full invariant — PR number > 0 and
namespace, app name and image reference non-empty — holds provided the
payload's PR number is positive and the mapping's app name and the head SHA
are non-empty, preconditions the pipeline itself does not check. -/
theorem C6_resolvedConfigInvariant (envCfg : EnvConfig) (appCfg : AppMapping)
    (repo : String) (pr : Int) (sha : String) (cfg : PreviewConfig)
    (h : resolvePreviewConfig envCfg appCfg repo pr sha = .ok cfg) :
    cfg.nspace ≠ "" ∧ cfg.prNumber = pr ∧ cfg.appName = appCfg.appName ∧
    (0 < pr → appCfg.appName ≠ "" → sha ≠ "" →
      0 < cfg.prNumber ∧ cfg.nspace ≠ "" ∧ cfg.appName ≠ "" ∧
      cfg.imageRef ≠ "") := by
  unfold resolvePreviewConfig at h
  dsimp only at h
  generalize (if appCfg.containerPort = 0 then envCfg.defaultPort
    else appCfg.containerPort) = port at h
  split at h
  · cases h
  next tag htag =>
    split at h
    · cases h
    next imageRef himg =>
      split at h
      · cases h
      next nspace hns =>
        split at h
        · cases h
        next routeHost hroute =>
          injection h with h2
          subst h2
          have hnsne := namespaceForMode_ok_ne_empty _ _ _ _ _ hns
          refine ⟨hnsne, rfl, rfl, ?_⟩
          intro hpr happ hsha
          have htagne := imageTag_ok_ne_empty _ _ _ _ htag hsha
          have himgne := renderTemplate_ok_ne_empty _ _ _ _ _ himg happ htagne
          exact ⟨hpr, hnsne, happ, himgne⟩

theorem C6_resolvedConfigInvariant_witness :
    ("previews" : String) ≠ "" ∧ (42 : Int) = 42 ∧
    ("myapp" : String) = "myapp" ∧
    ((0 : Int) < 42 ∧ ("previews" : String) ≠ "" ∧ ("myapp" : String) ≠ "" ∧
      ("registry.local/myapp:pr-42" : String) ≠ "") := by
  have h := C6_resolvedConfigInvariant
    { namespaceMode := "single", baseNamespace := "previews",
      routeTemplate := "{app}-pr-{pr}.example.com",
      imageTemplate := "registry.local/{app}:{tag}",
      tagStrategy := "pr", defaultPort := 8080 }
    { appName := "myapp", containerPort := 0, routePath := "", env := [] }
    "org/repo" 42 "abc123"
    { appName := "myapp", nspace := "previews", prNumber := 42,
      repoFullName := "org/repo", imageRef := "registry.local/myapp:pr-42",
      containerPort := 8080, routeHost := "myapp-pr-42.example.com",
      routePath := "", headSHA := "abc123", env := [] }
    (by decide)
  exact ⟨h.1, h.2.1, h.2.2.1, h.2.2.2 (by decide) (by decide) (by decide)⟩

/-- C1: the code contradicts the claim at the namespace-delete step: with the
per-pr namespace mode, after the three kinds drain successfully, a not-found
from the namespace delete makes DeletePreview return an error rather than
success (first conjunct), while deleting with a selector that matches no
objects is indeed a successful no-op when the namespace delete does not fail
(second and third conjuncts). -/
theorem C1_deleteNamespaceNotFound :
    (deletePreview { delNamespace := .notFound } "per-pr" =
      .error "delete namespace: not found") ∧
    (deletePreview {} "per-pr" = .ok ()) ∧
    (deletePreview {} "single" = .ok ()) := by
  refine ⟨rfl, rfl, rfl⟩

end AutoDeployer
